import Mathlib

/-!
# Verification of the per-thread-data (PTD) registry of `src/crt/vcruntime/utility.cpp`

Shallow embedding of the kernel-mode per-thread-data registry
(`per_thread_data.cpp` section of the source): an AVL generic table keyed
by thread id, backed by a fixed-size non-paged lookaside pool, with
operations `__acrt_initialize_ptd`, `__acrt_uninitialize_ptd`,
`__acrt_getptd_noexit`, `__acrt_getptd` and `__acrt_freeptd`.

Modelling decisions (all traced to the source):
* `__acrt_ptd` (the base scratch region) is modelled by `Ptd`: the two
  lazily allocated heap sub-resources `_strerror_buffer` and
  `_wcserror_buffer` (an `Option Nat` "address", `none` = null pointer)
  plus an opaque `scratch : Nat` standing for the rest of the region.
  The all-zero region is `Ptd.zero`.
* `__acrt_ptd_km` extends the base with `tid` (a `void*`, modelled `Nat`)
  and `uid` (a 64-bit token, modelled `Nat`); in the C layout these fields
  lie after the `sizeof __acrt_ptd` base region.
* The `RTL_AVL_TABLE` is modelled by a list of `Entry` kept in ascending
  `tid` order (the table's compare callback orders by `tid` alone); an
  entry's `blockId` models the identity of the pool block backing the
  element (the `RTL_BALANCED_LINKS` header / allocation identity), so
  "same block object" = same `blockId`.
* The `NPAGED_LOOKASIDE_LIST` pool is modelled by a remaining-capacity
  counter `freeBlocks` plus a fresh-identity counter `nextBlockId`;
  `ExAllocateFromNPagedLookasideList` fails exactly when capacity is 0.
* `__acrt_ptd_table_free` frees the two sub-resource buffers with `free`
  before returning the block to the pool; the model records the freed
  addresses in the `freedBuffers` log so the claim "freed, not merely
  detached" is observable.
* The spin lock serialises every operation, so each C function is one
  atomic state transition `RegistryState → result × RegistryState`.
-/

/-- The base `__acrt_ptd` scratch region: two owned heap buffers and the
remaining opaque scratch bytes. -/
structure Ptd where
  strerrorBuffer : Option Nat
  wcserrorBuffer : Option Nat
  scratch : Nat
deriving DecidableEq, Repr

/-- The all-zero base region (`RtlSecureZeroMemory` over `sizeof __acrt_ptd`,
and also the value-initialised local `__acrt_ptd_km ptd{}`). -/
def Ptd.zero : Ptd := ⟨none, none, 0⟩

/-- `__acrt_ptd_km`: the base region followed by the identity fields
`tid` and `uid` (which lie after the base region in the C layout). -/
structure PtdKm where
  base : Ptd
  tid : Nat
  uid : Nat
deriving DecidableEq, Repr

/-- One element of the AVL table: the pool block backing it (its identity
`blockId`, standing for the `RTL_BALANCED_LINKS` header and the block's
address) and the `__acrt_ptd_km` user data stored in it. -/
structure Entry where
  blockId : Nat
  km : PtdKm
deriving DecidableEq, Repr

/-- The registry's global state: `__acrt_startup_ptd_table` (list in
ascending `tid` order), the `__acrt_startup_ptd_pools` lookaside list
(remaining capacity and fresh-block counter, `poolActive` false once
`ExDeleteNPagedLookasideList` ran), and the log of heap addresses passed
to `free` by the table's free callback. -/
structure RegistryState where
  table : List Entry
  freeBlocks : Nat
  nextBlockId : Nat
  poolActive : Bool
  freedBuffers : List Nat
deriving DecidableEq, Repr

/-- `__get_thread_uid`: packs `(UniqueProcess >> 2) & 0xFFFFFFFF` into the
upper 32 bits and `(UniqueThread >> 2) & 0xFFFFFFFF` into the lower 32
bits of one 64-bit value. -/
def __get_thread_uid (uniqueProcess uniqueThread : Nat) : Nat :=
  (((uniqueProcess / 4) % 2 ^ 32) * 2 ^ 32) + ((uniqueThread / 4) % 2 ^ 32)

/-- `__acrt_ptd_table_compare`: orders two elements by `tid` alone; the
`uid` token is never consulted. -/
def __acrt_ptd_table_compare (first second : PtdKm) : Ordering :=
  if first.tid < second.tid then Ordering.lt
  else if first.tid > second.tid then Ordering.gt
  else Ordering.eq

/-- `__acrt_ptd_table_allocate`: draws one block from the lookaside pool;
yields `none` (a null pointer) when the pool is exhausted. -/
def __acrt_ptd_table_allocate (s : RegistryState) : Option (Nat × RegistryState) :=
  if s.freeBlocks = 0 then none
  else some (s.nextBlockId,
    { s with freeBlocks := s.freeBlocks - 1, nextBlockId := s.nextBlockId + 1 })

/-- The heap addresses `__acrt_ptd_table_free` passes to `free`: the
`_strerror_buffer` and then the `_wcserror_buffer`, skipping nulls. -/
def bufferPtrs (p : Ptd) : List Nat :=
  p.strerrorBuffer.toList ++ p.wcserrorBuffer.toList

/-- `__acrt_ptd_table_free`: frees the element's two owned sub-resource
buffers, then returns the block to the lookaside pool. -/
def __acrt_ptd_table_free (s : RegistryState) (e : Entry) : RegistryState :=
  { s with freedBuffers := s.freedBuffers ++ bufferPtrs e.km.base,
           freeBlocks := s.freeBlocks + 1 }

/-- `RtlLookupElementGenericTableAvl`: finds the element the compare
callback deems equal to the probe (`tid` match), or `none`. -/
def rtlLookupElement (table : List Entry) (probe : PtdKm) : Option Entry :=
  table.find? (fun e => __acrt_ptd_table_compare probe e.km == Ordering.eq)

/-- Insertion position of a new element, by the compare callback's order. -/
def tableInsertSorted (e : Entry) : List Entry → List Entry
  | [] => [e]
  | x :: xs =>
    if __acrt_ptd_table_compare e.km x.km == Ordering.lt then e :: x :: xs
    else x :: tableInsertSorted e xs

/-- `RtlInsertElementGenericTableAvl`: if an element with an equal key is
present it is returned with `inserted = false`; otherwise a block is drawn
through the allocate callback (`none` on pool exhaustion), the probe's
bytes are copied into it and it is linked into the table with
`inserted = true`. -/
def rtlInsertElement (s : RegistryState) (km : PtdKm) :
    Option Entry × Bool × RegistryState :=
  match rtlLookupElement s.table km with
  | some e => (some e, false, s)
  | none =>
    match __acrt_ptd_table_allocate s with
    | none => (none, false, s)
    | some (bid, s') =>
      let e : Entry := ⟨bid, km⟩
      (some e, true, { s' with table := tableInsertSorted e s'.table })

/-- `RtlDeleteElementGenericTableAvl`: finds the element matching the
probe (by the compare callback, so by `tid` alone); if present, unlinks it
and hands its block to the free callback, returning `true`; otherwise the
table is untouched and it returns `false`. -/
def rtlDeleteElement (s : RegistryState) (probe : PtdKm) : RegistryState × Bool :=
  match rtlLookupElement s.table probe with
  | some e =>
    (__acrt_ptd_table_free
      { s with table :=
          s.table.filter (fun x => !(__acrt_ptd_table_compare probe x.km == Ordering.eq)) }
      e, true)
  | none => (s, false)

/-- `RtlGetElementGenericTableAvl(table, 0)`: the table's front element. -/
def rtlGetElementZero (s : RegistryState) : Option Entry := s.table.head?

/-- `store_and_initialize_ptd`: inserts `ptd` (returning `none` if the
insert could not allocate); if the element's stored `uid` differs from the
calling thread's current uid (`tid` reused by a different thread), the
base `sizeof __acrt_ptd` region is zeroed in place — the `tid`/`uid`
fields and the balanced-links header are not touched ("not reset
pid/uid"). -/
def store_and_initialize_ptd (s : RegistryState) (ptd : PtdKm) (currentUid : Nat) :
    Option Entry × RegistryState :=
  match rtlInsertElement s ptd with
  | (none, _, s') => (none, s')
  | (some newPtd, _, s') =>
    if currentUid ≠ newPtd.km.uid then
      let zeroed : Entry := ⟨newPtd.blockId, { newPtd.km with base := Ptd.zero }⟩
      (some zeroed,
        { s' with table := s'.table.map (fun x =>
            if x.blockId = newPtd.blockId then zeroed else x) })
    else (some newPtd, s')

/-- `__acrt_getptd_noexit`: builds a zero-initialised probe holding the
calling thread's `tid` and `uid`, looks the `tid` up under the spin lock,
and returns the hit unchanged; on a miss it tries
`store_and_initialize_ptd`. -/
def __acrt_getptd_noexit (s : RegistryState) (tid uid : Nat) :
    Option Entry × RegistryState :=
  let ptd : PtdKm := { base := Ptd.zero, tid := tid, uid := uid }
  match rtlLookupElement s.table ptd with
  | some existing => (some existing, s)
  | none => store_and_initialize_ptd s ptd uid

/-- Result of the strict lookup: a block, or abnormal termination. -/
inductive GetptdResult where
  | block (e : Entry)
  | aborted
deriving DecidableEq, Repr

/-- `__acrt_getptd`: the strict wrapper — `abort()` exactly when the
no-exit variant yields a null block. -/
def __acrt_getptd (s : RegistryState) (tid uid : Nat) :
    GetptdResult × RegistryState :=
  match __acrt_getptd_noexit s tid uid with
  | (none, s') => (GetptdResult.aborted, s')
  | (some e, s') => (GetptdResult.block e, s')

/-- `__acrt_freeptd`: builds a probe from the calling thread's identity
and deletes the matching table element under the spin lock (a no-op when
none matches). -/
def __acrt_freeptd (s : RegistryState) (tid uid : Nat) : RegistryState :=
  let currentPtd : PtdKm := { base := Ptd.zero, tid := tid, uid := uid }
  (rtlDeleteElement s currentPtd).1

/-- The drain loop of `__acrt_uninitialize_ptd`: take the table's front
element and delete it, until the table is empty. -/
def drainLoop (s : RegistryState) : RegistryState :=
  match h : rtlGetElementZero s with
  | none => s
  | some e => drainLoop (rtlDeleteElement s e.km).1
termination_by s.table.length
decreasing_by
  cases ht : s.table with
  | nil => simp [rtlGetElementZero, ht] at h
  | cons x xs =>
    have hx : x = e := by simpa [rtlGetElementZero, ht] using h
    subst hx
    have hself : (__acrt_ptd_table_compare x.km x.km == Ordering.eq) = true := by
      have hc : __acrt_ptd_table_compare x.km x.km = Ordering.eq := by
        simp [__acrt_ptd_table_compare]
      rw [hc]; rfl
    have hlook : rtlLookupElement (x :: xs) x.km = some x := by
      rw [rtlLookupElement]
      exact List.find?_cons_of_pos _ hself
    have hle := List.length_filter_le
      (fun y => !(__acrt_ptd_table_compare x.km y.km == Ordering.eq)) xs
    simp [rtlDeleteElement, ht, hlook, __acrt_ptd_table_free,
      List.filter_cons, hself]
    omega

/-- `__acrt_uninitialize_ptd`: drains the table front-first through the
free callback, then destroys the lookaside pool; always returns true. -/
def __acrt_uninitialize_ptd (s : RegistryState) : RegistryState × Bool :=
  ({ drainLoop s with poolActive := false }, true)

/-- `__acrt_initialize_ptd`: sets up the pool (capacity `capacity`), the
lock and the empty table, then bootstrap-inserts a block for the
initialising thread; on bootstrap failure it calls
`__acrt_uninitialize_ptd` and reports failure. -/
def __acrt_initialize_ptd (capacity tid uid : Nat) : RegistryState × Bool :=
  let s : RegistryState :=
    { table := [], freeBlocks := capacity, nextBlockId := 0,
      poolActive := true, freedBuffers := [] }
  let ptd : PtdKm := { base := Ptd.zero, tid := tid, uid := uid }
  match store_and_initialize_ptd s ptd uid with
  | (none, s') => ((__acrt_uninitialize_ptd s').1, false)
  | (some _, s') => (s', true)

/-- One step of the getptd-call sequence of §8: the n-th `__acrt_getptd_noexit`
call issued from the same thread identity, with no other operation between. -/
def getptdSeq (s : RegistryState) (tid uid : Nat) : Nat → Option Entry × RegistryState
  | 0 => __acrt_getptd_noexit s tid uid
  | n + 1 => __acrt_getptd_noexit (getptdSeq s tid uid n).2 tid uid

/-- `__acrt_getptd_noexit` called once per identity of `ids`, left to right:
the list of returned blocks and the final state. -/
def getptdRuns (s : RegistryState) : List (Nat × Nat) → List (Option Entry) × RegistryState
  | [] => ([], s)
  | (tid, uid) :: rest =>
    let r := __acrt_getptd_noexit s tid uid
    let rs := getptdRuns r.2 rest
    (r.1 :: rs.1, rs.2)

/-- A state holding one stale entry: pool block 0 stores tid 10 stamped with
a prior occupant's token 7 and still-live scratch contents. -/
def staleState : RegistryState :=
  { table := [⟨0, ⟨⟨some 11, some 22, 7⟩, 10, 7⟩⟩], freeBlocks := 2,
    nextBlockId := 1, poolActive := true, freedBuffers := [] }

/-- The compare callback answers `GenericEqual` exactly on equal tids. -/
theorem ptd_compare_eq_iff (a b : PtdKm) :
    ((__acrt_ptd_table_compare a b == Ordering.eq) = true) ↔ a.tid = b.tid := by
  unfold __acrt_ptd_table_compare
  split
  · next hlt =>
    simp only [show (Ordering.lt == Ordering.eq) = false from rfl,
      Bool.false_eq_true, false_iff]
    omega
  · next h1 =>
    split
    · next hgt =>
      simp only [show (Ordering.gt == Ordering.eq) = false from rfl,
        Bool.false_eq_true, false_iff]
      omega
    · next h2 =>
      simp only [show (Ordering.eq == Ordering.eq) = true from rfl, true_iff]
      omega

/-- The lookup predicate holds on an element carrying the probe's tid. -/
theorem lookup_pred_true (p : PtdKm) (e : Entry) (heq : p.tid = e.km.tid) :
    (__acrt_ptd_table_compare p e.km == Ordering.eq) = true :=
  (ptd_compare_eq_iff p e.km).mpr heq

/-- The lookup predicate fails on an element with a different tid. -/
theorem lookup_pred_false (p : PtdKm) (e : Entry) (hne : p.tid ≠ e.km.tid) :
    (__acrt_ptd_table_compare p e.km == Ordering.eq) = false := by
  cases hb : (__acrt_ptd_table_compare p e.km == Ordering.eq) with
  | false => rfl
  | true => exact absurd ((ptd_compare_eq_iff p e.km).mp hb) hne

/-- Lookup consults only the probe's tid. -/
theorem rtlLookupElement_congr (t : List Entry) (p q : PtdKm) (h : p.tid = q.tid) :
    rtlLookupElement t p = rtlLookupElement t q := by
  unfold rtlLookupElement
  have hfun : (fun (e : Entry) => __acrt_ptd_table_compare p e.km == Ordering.eq)
      = (fun (e : Entry) => __acrt_ptd_table_compare q e.km == Ordering.eq) := by
    funext e
    unfold __acrt_ptd_table_compare
    rw [h]
  rw [hfun]

/-- Lookup misses exactly when no element carries the probe's tid. -/
theorem rtlLookupElement_eq_none_iff (t : List Entry) (p : PtdKm) :
    rtlLookupElement t p = none ↔ ∀ e ∈ t, p.tid ≠ e.km.tid := by
  unfold rtlLookupElement
  rw [List.find?_eq_none]
  constructor
  · intro h e he heq
    exact h e he (lookup_pred_true p e heq)
  · intro h e he hbeq
    exact h e he ((ptd_compare_eq_iff p e.km).mp hbeq)

/-- A lookup hit is a member of the table and carries the probe's tid. -/
theorem rtlLookupElement_eq_some (t : List Entry) (p : PtdKm) (e : Entry)
    (h : rtlLookupElement t p = some e) : e ∈ t ∧ p.tid = e.km.tid := by
  unfold rtlLookupElement at h
  have hmem := List.mem_of_find?_eq_some h
  have hp := List.find?_some h
  exact ⟨hmem, (ptd_compare_eq_iff p e.km).mp hp⟩

/-- Sorted insertion adds exactly the new element. -/
theorem mem_tableInsertSorted (e x : Entry) (t : List Entry) :
    x ∈ tableInsertSorted e t ↔ x = e ∨ x ∈ t := by
  induction t with
  | nil => simp [tableInsertSorted]
  | cons y ys ih =>
    unfold tableInsertSorted
    split
    · simp
    · simp only [List.mem_cons, ih]
      tauto

/-- Sorted insertion grows the table by one element. -/
theorem length_tableInsertSorted (e : Entry) (t : List Entry) :
    (tableInsertSorted e t).length = t.length + 1 := by
  induction t with
  | nil => rfl
  | cons y ys ih =>
    unfold tableInsertSorted
    split
    · rfl
    · simp [ih]

/-- After inserting a tid absent from the table, lookup by that tid finds
the inserted element. -/
theorem lookup_tableInsertSorted_self (e : Entry) (t : List Entry) (p : PtdKm)
    (hfresh : ∀ x ∈ t, x.km.tid ≠ e.km.tid) (hp : p.tid = e.km.tid) :
    rtlLookupElement (tableInsertSorted e t) p = some e := by
  induction t with
  | nil =>
    unfold tableInsertSorted rtlLookupElement
    rw [List.find?_cons_of_pos]
    exact (ptd_compare_eq_iff p e.km).mpr hp
  | cons y ys ih =>
    unfold tableInsertSorted
    split
    · unfold rtlLookupElement
      rw [List.find?_cons_of_pos]
      exact (ptd_compare_eq_iff p e.km).mpr hp
    · have hy : y.km.tid ≠ e.km.tid := hfresh y (List.mem_cons_self y ys)
      unfold rtlLookupElement
      rw [List.find?_cons_of_neg]
      · exact ih (fun x hx => hfresh x (List.mem_cons_of_mem y hx))
      · intro hbeq
        exact hy (((ptd_compare_eq_iff p y.km).mp hbeq ▸ hp) ▸ rfl)

/-- Lookup by a tid different from the inserted element's is unchanged. -/
theorem lookup_tableInsertSorted_ne (e : Entry) (t : List Entry) (p : PtdKm)
    (hne : p.tid ≠ e.km.tid) :
    rtlLookupElement (tableInsertSorted e t) p = rtlLookupElement t p := by
  have hpe : ¬ ((__acrt_ptd_table_compare p e.km == Ordering.eq) = true) := by
    rw [lookup_pred_false p e hne]
    exact Bool.false_ne_true
  induction t with
  | nil =>
    unfold tableInsertSorted rtlLookupElement
    apply List.find?_cons_of_neg
    exact hpe
  | cons y ys ih =>
    unfold tableInsertSorted
    split
    · unfold rtlLookupElement
      apply List.find?_cons_of_neg
      exact hpe
    · unfold rtlLookupElement at ih ⊢
      rw [List.find?_cons, List.find?_cons]
      cases hy : (__acrt_ptd_table_compare p y.km == Ordering.eq) <;> simp [ih]

/-- A state whose lookaside pool is exhausted. -/
def exhaustedState : RegistryState :=
  { table := [], freeBlocks := 0, nextBlockId := 5, poolActive := true,
    freedBuffers := [] }

/-- A lookup hit makes `__acrt_getptd_noexit` return the found element
as-is and leave the state untouched. -/
theorem getptd_noexit_hit (s : RegistryState) (tid uid : Nat) (e : Entry)
    (h : rtlLookupElement s.table ⟨Ptd.zero, tid, uid⟩ = some e) :
    __acrt_getptd_noexit s tid uid = (some e, s) := by
  simp only [__acrt_getptd_noexit]
  rw [h]

/-- A miss with remaining pool capacity: `__acrt_getptd_noexit` inserts and
returns a fresh zero-initialised block stamped with the caller's identity. -/
theorem getptd_noexit_miss (s : RegistryState) (tid uid : Nat)
    (hmiss : rtlLookupElement s.table ⟨Ptd.zero, tid, uid⟩ = none)
    (hcap : s.freeBlocks ≠ 0) :
    __acrt_getptd_noexit s tid uid =
      (some ⟨s.nextBlockId, ⟨Ptd.zero, tid, uid⟩⟩,
       { s with
          table := tableInsertSorted ⟨s.nextBlockId, ⟨Ptd.zero, tid, uid⟩⟩ s.table,
          freeBlocks := s.freeBlocks - 1,
          nextBlockId := s.nextBlockId + 1 }) := by
  simp only [__acrt_getptd_noexit]
  rw [hmiss]
  simp only [store_and_initialize_ptd, rtlInsertElement]
  rw [hmiss]
  simp [__acrt_ptd_table_allocate, hcap]

/-- A miss with the pool exhausted: `__acrt_getptd_noexit` yields no block
and leaves the state untouched. -/
theorem getptd_noexit_exhausted (s : RegistryState) (tid uid : Nat)
    (hmiss : rtlLookupElement s.table ⟨Ptd.zero, tid, uid⟩ = none)
    (hcap : s.freeBlocks = 0) :
    __acrt_getptd_noexit s tid uid = (none, s) := by
  simp only [__acrt_getptd_noexit]
  rw [hmiss]
  simp only [store_and_initialize_ptd, rtlInsertElement]
  rw [hmiss]
  simp [__acrt_ptd_table_allocate, hcap]

/-- **C2.** For every input state the soft variant `__acrt_getptd_noexit`
reports its only table-internal allocation failure — pool exhaustion on a
miss — as an absent (`none`) result with the state untouched, never by
terminating; and the strict wrapper `__acrt_getptd` aborts exactly when the
soft variant reports absence, returning the non-null block otherwise. -/
theorem getptd_error_propagation (s : RegistryState) (tid uid : Nat) :
    ((__acrt_getptd_noexit s tid uid).1 = none ↔
      rtlLookupElement s.table ⟨Ptd.zero, tid, uid⟩ = none ∧ s.freeBlocks = 0) ∧
    ((__acrt_getptd_noexit s tid uid).1 = none →
      (__acrt_getptd_noexit s tid uid).2 = s) ∧
    ((__acrt_getptd s tid uid).1 = GetptdResult.aborted ↔
      (__acrt_getptd_noexit s tid uid).1 = none) ∧
    (∀ e, (__acrt_getptd_noexit s tid uid).1 = some e →
      (__acrt_getptd s tid uid).1 = GetptdResult.block e) := by
  cases hlook : rtlLookupElement s.table ⟨Ptd.zero, tid, uid⟩ with
  | some e =>
    have h := getptd_noexit_hit s tid uid e hlook
    refine ⟨?_, ?_, ?_, ?_⟩ <;> simp [h, __acrt_getptd, hlook]
  | none =>
    by_cases hcap : s.freeBlocks = 0
    · have h := getptd_noexit_exhausted s tid uid hlook hcap
      refine ⟨?_, ?_, ?_, ?_⟩ <;> simp [h, __acrt_getptd, hlook, hcap]
    · have h := getptd_noexit_miss s tid uid hlook hcap
      refine ⟨?_, ?_, ?_, ?_⟩ <;> simp [h, __acrt_getptd, hcap]

/-- Witness for C2: with the pool exhausted the soft variant yields `none`
and the strict variant aborts; on a hit the strict variant returns the
block. -/
theorem getptd_error_propagation_witness :
    (__acrt_getptd exhaustedState 20 9).1 = GetptdResult.aborted ∧
    (__acrt_getptd staleState 10 55).1 =
      GetptdResult.block ⟨0, ⟨⟨some 11, some 22, 7⟩, 10, 7⟩⟩ := by
  constructor
  · exact ((getptd_error_propagation exhaustedState 20 9).2.2.1).mpr (by decide)
  · exact (getptd_error_propagation staleState 10 55).2.2.2 _ (by decide)

/-- **C8.** `__get_thread_uid` is a total (failure-free) function of the
OS-provided process and thread identifiers that packs the two identifiers'
retained bits (each identifier shifted past its two always-zero alignment
bits and truncated to 32 bits) into one 64-bit value: the upper 32 bits of
the token are derived from the owning-process identifier alone and the
lower 32 bits from the thread identifier alone. -/
theorem get_thread_uid_packing (p t : Nat) :
    __get_thread_uid p t < 2 ^ 64 ∧
    __get_thread_uid p t / 2 ^ 32 = (p / 4) % 2 ^ 32 ∧
    __get_thread_uid p t % 2 ^ 32 = (t / 4) % 2 ^ 32 := by
  unfold __get_thread_uid
  have h32 : (2:ℕ) ^ 32 = 4294967296 := by norm_num
  have h64 : (2:ℕ) ^ 64 = 18446744073709551616 := by norm_num
  rw [h32, h64]
  omega

/-- **C1** is violated by the code: with a stale table entry present (same
tid 10, stored token 7, live scratch contents and sub-resource buffers), a
`__acrt_getptd_noexit` call from the new occupant (tid 10, token 55)
returns that entry **unchanged** — scratch not zeroed, token not
restamped — because the lookup-hit path never compares tokens and
`store_and_initialize_ptd` (the only place that zeroes) runs only on a
lookup miss. -/
theorem getptd_noexit_stale_hit_returns_stale :
    (__acrt_getptd_noexit staleState 10 55).1 =
      some ⟨0, { base := { strerrorBuffer := some 11, wcserrorBuffer := some 22,
                           scratch := 7 }, tid := 10, uid := 7 }⟩ ∧
    (__acrt_getptd_noexit staleState 10 55).2 = staleState := by
  constructor <;> rfl

/-- **C9.** On the reuse-on-mismatch path of `store_and_initialize_ptd`
(element found for the probe's tid, stored token ≠ current token), the
zero-fill covers exactly the base `__acrt_ptd` region: the returned
element keeps its block (balanced-links/pool identity `blockId`) and its
stored `tid` and `uid` — so the stored uniqueness token still holds the
previous occupant's value — and only that element's base region changes in
the table; pool and free-log are untouched. -/
theorem store_reuse_zero_fill_frame (s : RegistryState) (ptd : PtdKm)
    (currentUid : Nat) (e : Entry)
    (hfound : rtlLookupElement s.table ptd = some e)
    (hmismatch : currentUid ≠ e.km.uid) :
    (store_and_initialize_ptd s ptd currentUid).1 =
      some ⟨e.blockId, { base := Ptd.zero, tid := e.km.tid, uid := e.km.uid }⟩ ∧
    (store_and_initialize_ptd s ptd currentUid).2.table =
      s.table.map (fun x => if x.blockId = e.blockId
        then ⟨e.blockId, { base := Ptd.zero, tid := e.km.tid, uid := e.km.uid }⟩
        else x) ∧
    (store_and_initialize_ptd s ptd currentUid).2.freeBlocks = s.freeBlocks ∧
    (store_and_initialize_ptd s ptd currentUid).2.nextBlockId = s.nextBlockId ∧
    (store_and_initialize_ptd s ptd currentUid).2.freedBuffers = s.freedBuffers := by
  simp only [store_and_initialize_ptd, rtlInsertElement]
  rw [hfound]
  simp only [if_pos hmismatch]
  exact ⟨trivial, trivial, trivial, trivial, trivial⟩

/-- Witness for C9: reusing the stale slot of `staleState` zeroes the base
region but keeps block 0 and the previous occupant's token 7. -/
theorem store_reuse_zero_fill_frame_witness :
    (store_and_initialize_ptd staleState ⟨Ptd.zero, 10, 55⟩ 55).1 =
      some ⟨0, { base := Ptd.zero, tid := 10, uid := 7 }⟩ :=
  (store_reuse_zero_fill_frame staleState ⟨Ptd.zero, 10, 55⟩ 55
    ⟨0, ⟨⟨some 11, some 22, 7⟩, 10, 7⟩⟩ (by decide) (by decide)).1

/-- `drainLoop` on an empty table stops at once. -/
theorem drainLoop_nil (s : RegistryState) (h : s.table = []) : drainLoop s = s := by
  rw [drainLoop]
  split
  · rfl
  · next e heq =>
    rw [rtlGetElementZero, h] at heq
    cases heq

/-- One iteration of `drainLoop`: delete the front element and continue. -/
theorem drainLoop_cons (s : RegistryState) (e : Entry)
    (h : rtlGetElementZero s = some e) :
    drainLoop s = drainLoop (rtlDeleteElement s e.km).1 := by
  rw [drainLoop]
  split
  · next hnone => rw [h] at hnone; cases hnone
  · next e' heq =>
    rw [h] at heq
    cases heq
    rfl

/-- Deleting by the front element's own km removes the front element (and
any further element sharing its tid) and runs the free callback on it. -/
theorem rtlDeleteElement_head (s : RegistryState) (e : Entry) (rest : List Entry)
    (ht : s.table = e :: rest) :
    (rtlDeleteElement s e.km).1 =
      { s with
        table := rest.filter
          (fun x => !(__acrt_ptd_table_compare e.km x.km == Ordering.eq)),
        freeBlocks := s.freeBlocks + 1,
        freedBuffers := s.freedBuffers ++ bufferPtrs e.km.base } := by
  have hlook : rtlLookupElement (e :: rest) e.km = some e := by
    rw [rtlLookupElement]
    exact List.find?_cons_of_pos _ (lookup_pred_true e.km e rfl)
  have hpe : (!(__acrt_ptd_table_compare e.km e.km == Ordering.eq)) = false := by
    rw [lookup_pred_true e.km e rfl]
    rfl
  simp [rtlDeleteElement, ht, hlook, __acrt_ptd_table_free, List.filter_cons, hpe]

/-- Every drain run empties the table and touches neither the pool-active
flag nor the fresh-block counter. -/
theorem drainLoop_base_fields :
    ∀ (n : Nat) (s : RegistryState), s.table.length ≤ n →
    (drainLoop s).table = [] ∧
    (drainLoop s).poolActive = s.poolActive ∧
    (drainLoop s).nextBlockId = s.nextBlockId := by
  intro n
  induction n with
  | zero =>
    intro s hle
    have ht : s.table = [] := List.length_eq_zero.mp (Nat.le_zero.mp hle)
    rw [drainLoop_nil s ht]
    exact ⟨ht, rfl, rfl⟩
  | succ n ih =>
    intro s hle
    cases ht : s.table with
    | nil =>
      rw [drainLoop_nil s ht]
      exact ⟨ht, rfl, rfl⟩
    | cons e rest =>
      have hhead : rtlGetElementZero s = some e := by
        rw [rtlGetElementZero, ht]
        rfl
      rw [drainLoop_cons s e hhead]
      have hdel := rtlDeleteElement_head s e rest ht
      have hlen : (rtlDeleteElement s e.km).1.table.length ≤ n := by
        rw [hdel]
        show (rest.filter
          (fun x => !(__acrt_ptd_table_compare e.km x.km == Ordering.eq))).length ≤ n
        have hf := List.length_filter_le
          (fun x => !(__acrt_ptd_table_compare e.km x.km == Ordering.eq)) rest
        have hr : s.table.length = rest.length + 1 := by rw [ht]; rfl
        omega
      have hih := ih (rtlDeleteElement s e.km).1 hlen
      refine ⟨hih.1, ?_, ?_⟩
      · rw [hih.2.1, hdel]
      · rw [hih.2.2, hdel]

/-- With pairwise-distinct tids, a drain run frees every element's
sub-resource buffers in table order and returns every block to the pool. -/
theorem drainLoop_accounting :
    ∀ (n : Nat) (s : RegistryState), s.table.length ≤ n →
    (s.table.map (fun e => e.km.tid)).Nodup →
    (drainLoop s).freedBuffers =
      s.freedBuffers ++ (s.table.map (fun e => bufferPtrs e.km.base)).flatten ∧
    (drainLoop s).freeBlocks = s.freeBlocks + s.table.length := by
  intro n
  induction n with
  | zero =>
    intro s hle _
    have ht : s.table = [] := List.length_eq_zero.mp (Nat.le_zero.mp hle)
    rw [drainLoop_nil s ht]
    simp [ht]
  | succ n ih =>
    intro s hle hnd
    cases ht : s.table with
    | nil =>
      rw [drainLoop_nil s ht]
      simp [ht]
    | cons e rest =>
      have hhead : rtlGetElementZero s = some e := by
        rw [rtlGetElementZero, ht]
        rfl
      rw [drainLoop_cons s e hhead]
      have hnd' := ht ▸ hnd
      rw [List.map_cons, List.nodup_cons] at hnd'
      have hkeep : rest.filter
          (fun x => !(__acrt_ptd_table_compare e.km x.km == Ordering.eq)) = rest := by
        rw [List.filter_eq_self]
        intro x hx
        have hne : e.km.tid ≠ x.km.tid := by
          intro hcontra
          exact hnd'.1 (hcontra ▸ List.mem_map_of_mem (fun y => y.km.tid) hx)
        rw [lookup_pred_false e.km x hne]
        rfl
      have hdel := rtlDeleteElement_head s e rest ht
      rw [hkeep] at hdel
      have hlen : (rtlDeleteElement s e.km).1.table.length ≤ n := by
        rw [hdel]
        show rest.length ≤ n
        have hr : s.table.length = rest.length + 1 := by rw [ht]; rfl
        omega
      have hnd2 : ((rtlDeleteElement s e.km).1.table.map (fun e => e.km.tid)).Nodup := by
        rw [hdel]
        exact hnd'.2
      have hih := ih (rtlDeleteElement s e.km).1 hlen hnd2
      simp only [ht, List.map_cons, List.flatten_cons, List.length_cons]
      constructor
      · rw [hih.1, hdel]
        simp [List.append_assoc]
      · rw [hih.2, hdel]
        show s.freeBlocks + 1 + rest.length = s.freeBlocks + (rest.length + 1)
        omega

/-- **C4.** `__acrt_uninitialize_ptd` repeatedly removes the table's front
element until the table is empty — the loop terminates for every finite
table (`drainLoop` is total) — freeing each remaining block's sub-resource
buffers via the same free-callback path (`__acrt_ptd_table_free`) used by
`__acrt_freeptd`, then destroys the pool; called on an empty or
partially-initialised registry it does not fault and always leaves the
registry uninitialised (empty table, pool destroyed), reporting true. -/
theorem uninitialize_ptd_teardown (s : RegistryState) :
    (__acrt_uninitialize_ptd s).1.table = [] ∧
    (__acrt_uninitialize_ptd s).1.poolActive = false ∧
    (__acrt_uninitialize_ptd s).2 = true ∧
    ((s.table.map (fun e => e.km.tid)).Nodup →
      (__acrt_uninitialize_ptd s).1.freedBuffers =
        s.freedBuffers ++ (s.table.map (fun e => bufferPtrs e.km.base)).flatten ∧
      (__acrt_uninitialize_ptd s).1.freeBlocks = s.freeBlocks + s.table.length) := by
  have hbase := drainLoop_base_fields s.table.length s (Nat.le_refl _)
  refine ⟨?_, rfl, rfl, ?_⟩
  · simpa [__acrt_uninitialize_ptd] using hbase.1
  · intro hnd
    have hacc := drainLoop_accounting s.table.length s (Nat.le_refl _) hnd
    exact ⟨by simpa [__acrt_uninitialize_ptd] using hacc.1,
           by simpa [__acrt_uninitialize_ptd] using hacc.2⟩

/-- Witness for C4: tearing down `staleState` empties the table, frees the
buffers 11 and 22 through the free callback and returns the block. -/
theorem uninitialize_ptd_teardown_witness :
    (__acrt_uninitialize_ptd staleState).1.table = [] ∧
    (__acrt_uninitialize_ptd staleState).1.freedBuffers = [11, 22] ∧
    (__acrt_uninitialize_ptd staleState).1.freeBlocks = 3 := by
  have h := uninitialize_ptd_teardown staleState
  have hacc := h.2.2.2 (by decide)
  refine ⟨h.1, ?_, ?_⟩
  · rw [hacc.1]
    rfl
  · rw [hacc.2]
    rfl

/-- **C3.** `__acrt_initialize_ptd` either fails because the bootstrap
insert for the initialising thread could not allocate (exactly when the
pool capacity is zero), in which case it fully tears down all partial
setup — the resulting state is the empty-table, pool-destroyed,
nothing-leaked uninitialised state — and returns false; or it succeeds and
the table contains precisely a block stamped with the initialising
thread's identity. -/
theorem initialize_ptd_bootstrap (capacity tid uid : Nat) :
    (capacity = 0 →
      __acrt_initialize_ptd capacity tid uid =
        ({ table := [], freeBlocks := 0, nextBlockId := 0,
           poolActive := false, freedBuffers := [] }, false)) ∧
    (capacity ≠ 0 →
      __acrt_initialize_ptd capacity tid uid =
        ({ table := [⟨0, ⟨Ptd.zero, tid, uid⟩⟩], freeBlocks := capacity - 1,
           nextBlockId := 1, poolActive := true, freedBuffers := [] }, true)) := by
  constructor
  · intro hc
    subst hc
    have hnil := drainLoop_nil
      { table := [], freeBlocks := 0, nextBlockId := 0, poolActive := true,
        freedBuffers := [] } rfl
    simp [__acrt_initialize_ptd, store_and_initialize_ptd, rtlInsertElement,
      rtlLookupElement, __acrt_ptd_table_allocate, __acrt_uninitialize_ptd, hnil]
  · intro hc
    simp [__acrt_initialize_ptd, store_and_initialize_ptd, rtlInsertElement,
      rtlLookupElement, __acrt_ptd_table_allocate, hc, tableInsertSorted]

/-- Witness for C3: capacity 0 fails fully unwound; capacity 3 succeeds
with the initialising thread registered. -/
theorem initialize_ptd_bootstrap_witness :
    (__acrt_initialize_ptd 0 10 7).2 = false ∧
    (__acrt_initialize_ptd 0 10 7).1.table = [] ∧
    (__acrt_initialize_ptd 0 10 7).1.poolActive = false ∧
    (__acrt_initialize_ptd 3 10 7).2 = true := by
  have h0 := (initialize_ptd_bootstrap 0 10 7).1 rfl
  have h3 := (initialize_ptd_bootstrap 3 10 7).2 (by decide)
  rw [h0, h3]
  exact ⟨rfl, rfl, rfl, rfl⟩

/-- A second call under the same identity reproduces the first call's
result and state. -/
theorem getptd_noexit_stable (s : RegistryState) (tid uid : Nat) (e : Entry)
    (s₁ : RegistryState)
    (hfirst : __acrt_getptd_noexit s tid uid = (some e, s₁)) :
    __acrt_getptd_noexit s₁ tid uid = (some e, s₁) := by
  cases hlook : rtlLookupElement s.table ⟨Ptd.zero, tid, uid⟩ with
  | some e' =>
    have h := getptd_noexit_hit s tid uid e' hlook
    rw [h, Prod.mk.injEq] at hfirst
    obtain ⟨he, hs⟩ := hfirst
    obtain rfl := Option.some.inj he
    subst hs
    exact h
  | none =>
    by_cases hcap : s.freeBlocks = 0
    · have h := getptd_noexit_exhausted s tid uid hlook hcap
      rw [h, Prod.mk.injEq] at hfirst
      exact Option.noConfusion hfirst.1
    · have h := getptd_noexit_miss s tid uid hlook hcap
      rw [h, Prod.mk.injEq] at hfirst
      obtain ⟨he, hs⟩ := hfirst
      have he' := Option.some.inj he
      have hfresh : ∀ x ∈ s.table,
          x.km.tid ≠ (⟨s.nextBlockId, ⟨Ptd.zero, tid, uid⟩⟩ : Entry).km.tid := by
        intro x hx hcontra
        exact (rtlLookupElement_eq_none_iff s.table ⟨Ptd.zero, tid, uid⟩).mp hlook
          x hx hcontra.symm
      have hlook₁ : rtlLookupElement s₁.table ⟨Ptd.zero, tid, uid⟩ = some e := by
        rw [← hs, ← he']
        exact lookup_tableInsertSorted_self
          ⟨s.nextBlockId, ⟨Ptd.zero, tid, uid⟩⟩ s.table ⟨Ptd.zero, tid, uid⟩ hfresh rfl
      exact getptd_noexit_hit s₁ tid uid e hlook₁

/-- **C6.** Under one thread identity (fixed tid and uid), with no
intervening release, teardown or identity change, every call of a
`__acrt_getptd_noexit` sequence returns the very block the first call
returned, and the registry state stays as the first call left it. -/
theorem getptd_noexit_same_block (s : RegistryState) (tid uid : Nat) (e : Entry)
    (s₁ : RegistryState)
    (hfirst : __acrt_getptd_noexit s tid uid = (some e, s₁)) :
    ∀ n, getptdSeq s tid uid n = (some e, s₁) := by
  intro n
  induction n with
  | zero => exact hfirst
  | succ n ihn =>
    show __acrt_getptd_noexit (getptdSeq s tid uid n).2 tid uid = (some e, s₁)
    rw [ihn]
    exact getptd_noexit_stable s tid uid e s₁ hfirst

/-- Witness for C6: from `staleState`, identity (20, 99) creates block 1 on
the first call and the third repeated call still returns block 1 with the
state unchanged. -/
theorem getptd_noexit_same_block_witness :
    getptdSeq staleState 20 99 3 =
      (some ⟨1, ⟨Ptd.zero, 20, 99⟩⟩,
       { table := [⟨0, ⟨⟨some 11, some 22, 7⟩, 10, 7⟩⟩, ⟨1, ⟨Ptd.zero, 20, 99⟩⟩],
         freeBlocks := 1, nextBlockId := 2, poolActive := true,
         freedBuffers := [] }) :=
  getptd_noexit_same_block staleState 20 99 _ _ (by decide) 3

/-- Deleting after a lookup hit removes every element carrying the probe's
tid and runs the free callback on the found element. -/
theorem rtlDeleteElement_found (s : RegistryState) (probe : PtdKm) (e : Entry)
    (h : rtlLookupElement s.table probe = some e) :
    (rtlDeleteElement s probe).1 =
      { s with
        table := s.table.filter
          (fun x => !(__acrt_ptd_table_compare probe x.km == Ordering.eq)),
        freeBlocks := s.freeBlocks + 1,
        freedBuffers := s.freedBuffers ++ bufferPtrs e.km.base } := by
  simp only [rtlDeleteElement, h, __acrt_ptd_table_free]

/-- After filtering out the probe's tid, lookup of that tid misses. -/
theorem lookup_filter_out (t : List Entry) (probe : PtdKm) :
    rtlLookupElement
      (t.filter (fun x => !(__acrt_ptd_table_compare probe x.km == Ordering.eq)))
      probe = none := by
  rw [rtlLookupElement_eq_none_iff]
  intro e he heq
  obtain ⟨_, hpred⟩ := List.mem_filter.mp he
  simp only [lookup_pred_true probe e heq] at hpred
  cases hpred

/-- **C7.** `__acrt_freeptd` removes and frees the entry matching the
calling thread's identity when present — the free callback releases the
block's strerror/wcserror buffers into the freed log before the block
returns to the pool — and is a no-op when absent; a `__acrt_getptd_noexit`
immediately after a successful release allocates a fresh block whose base
region is all zero (null sub-resource pointers), never the released
block's stale pointers, which are in the freed log. -/
theorem freeptd_removes_and_frees (s : RegistryState) (tid uid : Nat) :
    (rtlLookupElement s.table ⟨Ptd.zero, tid, uid⟩ = none →
      __acrt_freeptd s tid uid = s) ∧
    (∀ e, rtlLookupElement s.table ⟨Ptd.zero, tid, uid⟩ = some e →
      __acrt_freeptd s tid uid =
        { s with
          table := s.table.filter
            (fun x => !(__acrt_ptd_table_compare ⟨Ptd.zero, tid, uid⟩ x.km == Ordering.eq)),
          freeBlocks := s.freeBlocks + 1,
          freedBuffers := s.freedBuffers ++ bufferPtrs e.km.base }) ∧
    (∀ e, rtlLookupElement s.table ⟨Ptd.zero, tid, uid⟩ = some e →
      (__acrt_getptd_noexit (__acrt_freeptd s tid uid) tid uid).1 =
        some ⟨s.nextBlockId, ⟨Ptd.zero, tid, uid⟩⟩ ∧
      ∀ b ∈ bufferPtrs e.km.base, b ∈ (__acrt_freeptd s tid uid).freedBuffers) := by
  refine ⟨?_, ?_, ?_⟩
  · intro hnone
    simp only [__acrt_freeptd, rtlDeleteElement, hnone]
  · intro e he
    exact rtlDeleteElement_found s ⟨Ptd.zero, tid, uid⟩ e he
  · intro e he
    have hdel := rtlDeleteElement_found s ⟨Ptd.zero, tid, uid⟩ e he
    have hfree : __acrt_freeptd s tid uid = (rtlDeleteElement s ⟨Ptd.zero, tid, uid⟩).1 := rfl
    rw [hfree, hdel]
    constructor
    · have hmiss := lookup_filter_out s.table (⟨Ptd.zero, tid, uid⟩ : PtdKm)
      have h := getptd_noexit_miss
        { s with
          table := s.table.filter
            (fun x => !(__acrt_ptd_table_compare ⟨Ptd.zero, tid, uid⟩ x.km == Ordering.eq)),
          freeBlocks := s.freeBlocks + 1,
          freedBuffers := s.freedBuffers ++ bufferPtrs e.km.base }
        tid uid hmiss (Nat.succ_ne_zero _)
      rw [h]
    · intro b hb
      exact List.mem_append_right _ hb

/-- Witness for C7: releasing tid 10 from `staleState` frees buffers 11 and
22 and empties the table; the immediate re-acquire returns a zero block. -/
theorem freeptd_removes_and_frees_witness :
    __acrt_freeptd staleState 10 55 =
      { table := [], freeBlocks := 3, nextBlockId := 1, poolActive := true,
        freedBuffers := [11, 22] } ∧
    (__acrt_getptd_noexit (__acrt_freeptd staleState 10 55) 10 55).1 =
      some ⟨1, ⟨Ptd.zero, 10, 55⟩⟩ := by
  have h := freeptd_removes_and_frees staleState 10 55
  constructor
  · rw [h.2.1 ⟨0, ⟨⟨some 11, some 22, 7⟩, 10, 7⟩⟩ (by decide)]
    rfl
  · exact (h.2.2 ⟨0, ⟨⟨some 11, some 22, 7⟩, 10, 7⟩⟩ (by decide)).1

/-- **C10.** `__acrt_freeptd` selects the element to delete through the
compare callback, which orders by tid alone and never reads the
uniqueness token: the operation is invariant under changing the caller's
token, and a stale entry (same tid, different stored token) is removed and
freed rather than treated as absent. -/
theorem freeptd_token_blind (s : RegistryState) (tid uid uid' : Nat) :
    __acrt_freeptd s tid uid = __acrt_freeptd s tid uid' ∧
    (∀ e, rtlLookupElement s.table ⟨Ptd.zero, tid, uid⟩ = some e →
      e.km.uid ≠ uid →
      __acrt_freeptd s tid uid =
        { s with
          table := s.table.filter
            (fun x => !(__acrt_ptd_table_compare ⟨Ptd.zero, tid, uid⟩ x.km == Ordering.eq)),
          freeBlocks := s.freeBlocks + 1,
          freedBuffers := s.freedBuffers ++ bufferPtrs e.km.base }) := by
  constructor
  · rfl
  · intro e he _
    exact rtlDeleteElement_found s ⟨Ptd.zero, tid, uid⟩ e he

/-- Witness for C10: deleting tid 10 with token 55 or token 99 gives the
same result, and the stale entry (stored token 7) is removed and freed. -/
theorem freeptd_token_blind_witness :
    __acrt_freeptd staleState 10 55 = __acrt_freeptd staleState 10 99 ∧
    (__acrt_freeptd staleState 10 55).table = [] ∧
    (__acrt_freeptd staleState 10 55).freedBuffers = [11, 22] := by
  have h := freeptd_token_blind staleState 10 55 99
  refine ⟨h.1, ?_, ?_⟩ <;>
    rw [h.2 ⟨0, ⟨⟨some 11, some 22, 7⟩, 10, 7⟩⟩ (by decide) (by decide)] <;> rfl

/-- Sorted insertion permutes consing the new element in front. -/
theorem tableInsertSorted_perm (e : Entry) (t : List Entry) :
    List.Perm (tableInsertSorted e t) (e :: t) := by
  induction t with
  | nil => exact List.Perm.refl _
  | cons y ys ih =>
    unfold tableInsertSorted
    split
    · exact List.Perm.refl _
    · exact (ih.cons y).trans (List.Perm.swap e y ys)

/-- Each `__acrt_getptd_noexit` call preserves the table invariant of
pairwise-distinct tids: a hit or an exhausted miss leaves the table alone,
and a successful miss inserts a tid that was absent. -/
theorem getptd_noexit_preserves_nodup (s : RegistryState) (tid uid : Nat)
    (hnd : (s.table.map (fun e => e.km.tid)).Nodup) :
    ((__acrt_getptd_noexit s tid uid).2.table.map (fun e => e.km.tid)).Nodup := by
  cases hlook : rtlLookupElement s.table ⟨Ptd.zero, tid, uid⟩ with
  | some e =>
    rw [getptd_noexit_hit s tid uid e hlook]
    exact hnd
  | none =>
    by_cases hcap : s.freeBlocks = 0
    · rw [getptd_noexit_exhausted s tid uid hlook hcap]
      exact hnd
    · rw [getptd_noexit_miss s tid uid hlook hcap]
      show ((tableInsertSorted ⟨s.nextBlockId, ⟨Ptd.zero, tid, uid⟩⟩ s.table).map
        (fun e => e.km.tid)).Nodup
      rw [List.Perm.nodup_iff
        ((tableInsertSorted_perm ⟨s.nextBlockId, ⟨Ptd.zero, tid, uid⟩⟩ s.table).map
          (fun e => e.km.tid))]
      rw [List.map_cons, List.nodup_cons]
      refine ⟨?_, hnd⟩
      intro hmem
      obtain ⟨x, hx, hxe⟩ := List.mem_map.mp hmem
      exact (rtlLookupElement_eq_none_iff s.table ⟨Ptd.zero, tid, uid⟩).mp hlook
        x hx hxe.symm

/-- A run of `__acrt_getptd_noexit` calls from identities with pairwise
distinct tids, all absent from the table, with enough pool capacity: the
returned blocks are the consecutive pool blocks starting at the current
fresh-block counter, and the table grows by one entry per identity. -/
theorem getptdRuns_fresh (ids : List (Nat × Nat)) :
    ∀ (s : RegistryState),
    (ids.map Prod.fst).Nodup →
    (∀ p ∈ ids, rtlLookupElement s.table ⟨Ptd.zero, p.1, p.2⟩ = none) →
    ids.length ≤ s.freeBlocks →
    (getptdRuns s ids).1.map (fun r => r.map (fun e => e.blockId)) =
      (List.range' s.nextBlockId ids.length).map some ∧
    (getptdRuns s ids).2.table.length = s.table.length + ids.length := by
  induction ids with
  | nil =>
    intro s _ _ _
    exact ⟨rfl, rfl⟩
  | cons p rest ih =>
    intro s hnd hfresh hcap
    obtain ⟨tid, uid⟩ := p
    have hmiss := hfresh (tid, uid) (List.mem_cons_self _ _)
    have hcap1 : rest.length + 1 ≤ s.freeBlocks := by simpa using hcap
    have hcap0 : s.freeBlocks ≠ 0 := by omega
    have hfirst := getptd_noexit_miss s tid uid hmiss hcap0
    have hrun : getptdRuns s ((tid, uid) :: rest) =
        ((some ⟨s.nextBlockId, ⟨Ptd.zero, tid, uid⟩⟩ : Option Entry) ::
          (getptdRuns (__acrt_getptd_noexit s tid uid).2 rest).1,
         (getptdRuns (__acrt_getptd_noexit s tid uid).2 rest).2) := by
      simp only [getptdRuns, hfirst]
    have hnd' : (rest.map Prod.fst).Nodup := by
      rw [List.map_cons, List.nodup_cons] at hnd
      exact hnd.2
    have hfresh' : ∀ q ∈ rest,
        rtlLookupElement (__acrt_getptd_noexit s tid uid).2.table
          ⟨Ptd.zero, q.1, q.2⟩ = none := by
      intro q hq
      have hne : q.1 ≠ tid := by
        intro hcontra
        have hmem : tid ∈ rest.map Prod.fst := by
          rw [← hcontra]
          exact List.mem_map_of_mem Prod.fst hq
        rw [List.map_cons, List.nodup_cons] at hnd
        exact hnd.1 hmem
      rw [hfirst]
      show rtlLookupElement
        (tableInsertSorted ⟨s.nextBlockId, ⟨Ptd.zero, tid, uid⟩⟩ s.table)
        ⟨Ptd.zero, q.1, q.2⟩ = none
      rw [lookup_tableInsertSorted_ne _ _ _ hne]
      exact hfresh q (List.mem_cons_of_mem _ hq)
    have hcap' : rest.length ≤ (__acrt_getptd_noexit s tid uid).2.freeBlocks := by
      rw [hfirst]
      show rest.length ≤ s.freeBlocks - 1
      omega
    have hih := ih (__acrt_getptd_noexit s tid uid).2 hnd' hfresh' hcap'
    rw [hrun]
    constructor
    · rw [List.map_cons, hih.1, List.length_cons, List.range'_succ]
      rw [hfirst]
      rfl
    · rw [hih.2, hfirst]
      show (tableInsertSorted ⟨s.nextBlockId, ⟨Ptd.zero, tid, uid⟩⟩ s.table).length
          + rest.length = s.table.length + (rest.length + 1)
      rw [length_tableInsertSorted]
      omega

/-- **C5.** The table keys entries by tid and insertion of an
already-present tid reuses the existing element, so a
`__acrt_getptd_noexit` call preserves pairwise-distinct tids — every
reachable state holds at most one live block per (tid, token) identity —
and a run of calls from N distinct fresh identities receives N pairwise
distinct pool blocks (the consecutive block identities) and leaves the
table with exactly N entries more than before. -/
theorem distinct_identities_distinct_blocks (s : RegistryState) :
    (∀ tid uid, (s.table.map (fun e => e.km.tid)).Nodup →
      ((__acrt_getptd_noexit s tid uid).2.table.map (fun e => e.km.tid)).Nodup) ∧
    (∀ ids : List (Nat × Nat),
      (ids.map Prod.fst).Nodup →
      (∀ p ∈ ids, rtlLookupElement s.table ⟨Ptd.zero, p.1, p.2⟩ = none) →
      ids.length ≤ s.freeBlocks →
      (getptdRuns s ids).1.map (fun r => r.map (fun e => e.blockId)) =
        (List.range' s.nextBlockId ids.length).map some ∧
      ((getptdRuns s ids).1.map (fun r => r.map (fun e => e.blockId))).Nodup ∧
      (getptdRuns s ids).2.table.length = s.table.length + ids.length) := by
  constructor
  · exact fun tid uid hnd => getptd_noexit_preserves_nodup s tid uid hnd
  · intro ids hnd hfresh hcap
    have h := getptdRuns_fresh ids s hnd hfresh hcap
    refine ⟨h.1, ?_, h.2⟩
    rw [h.1]
    exact (List.nodup_range' _ _).map (Option.some_injective _)

/-- Witness for C5: two fresh identities on `staleState` receive the
distinct blocks 1 and 2 and the table ends with 3 entries. -/
theorem distinct_identities_distinct_blocks_witness :
    (getptdRuns staleState [(20, 99), (5, 1)]).1.map
      (fun r => r.map (fun e => e.blockId)) = [some 1, some 2] ∧
    (getptdRuns staleState [(20, 99), (5, 1)]).2.table.length = 3 := by
  have h := (distinct_identities_distinct_blocks staleState).2 [(20, 99), (5, 1)]
    (by decide) (by decide) (by decide)
  constructor
  · rw [h.1]
    rfl
  · rw [h.2.2]
    rfl
